import Mathlib

/-!
Verification of the Coggomul word-chain game.

This file shallowly embeds the game session engine of the `App` component
(`src/unnamed/part_000`) and the post-game rank evaluator (`calculateRank`
in the game-over screen) and proves properties of the specification
against them.

Modelling conventions:
* The React `useState` fields of `App` become the fields of `AppState`;
  each event handler becomes a pure function that performs the same field
  updates as the source.
* JavaScript numbers are modelled as exact rationals (`ℚ`) where the
  source holds similarity/threshold values, and as integers (`ℤ`) for
  scores, lives and the timer.  `Math.round` is modelled as
  `jsRound x = ⌊x + 1/2⌋` (the JavaScript half-up semantics); the literals
  `0.2` and `0.01` become `2 / 10` and `1 / 100`.
* The similarity oracle and the random-word oracle are external calls
  that may fail; an oracle outcome enters a handler as an
  `Except String _` argument (`Except.error` carries the surfaced
  message).
* The event-dispatch conditions enforced by the UI layer (which screen is
  mounted for each `gameState`, the `disabled` flags while loading, and
  the `useInterval` delay guard) are captured by `step`; `Reachable`
  closes `initialState` under enabled steps.
-/

namespace Coggomul

/-- The `GameState` enum of `src/types.ts`. -/
inductive GameState
  | SELECTING_DIFFICULTY
  | PLAYING
  | GAME_OVER
deriving DecidableEq

/-- The `Difficulty` interface of `src/types.ts`. -/
structure Difficulty where
  name : String
  threshold : ℚ
  multiplier : ℚ
deriving DecidableEq

/-- The `GameAttempt` interface of `src/types.ts`. -/
structure GameAttempt where
  previousWord : String
  newWord : String
  similarity : ℚ
  success : Bool
  requiredThreshold : ℚ
  points : ℤ
deriving DecidableEq

/-- The `useState` fields of the `App` component that the session engine
reads and writes. -/
structure AppState where
  gameState : GameState
  difficulty : Option Difficulty
  currentThreshold : ℚ
  score : ℤ
  currentWord : String
  history : List GameAttempt
  lives : ℤ
  isLoading : Bool
  error : Option String
  timeLeft : ℤ
deriving DecidableEq

/-- The initial values of the `useState` hooks in `App`. -/
def initialState : AppState where
  gameState := GameState.SELECTING_DIFFICULTY
  difficulty := none
  currentThreshold := 0
  score := 0
  currentWord := ""
  history := []
  lives := 3
  isLoading := false
  error := none
  timeLeft := 30

/-- JavaScript `Math.round`: round half toward positive infinity. -/
def jsRound (x : ℚ) : ℤ := ⌊x + 1 / 2⌋

/-- The `newWord` recorded by `handleTimeout`. -/
def timeoutMarker : String := "(시간 초과)"

/-- The error message set when a submitted word was already used. -/
def usedWordError : String := "이미 사용한 단어입니다. 다른 단어를 입력해주세요."

/-- The `GameAttempt` literal built inside `handleTimeout`. -/
def timeoutAttempt (s : AppState) : GameAttempt where
  previousWord := s.currentWord
  newWord := timeoutMarker
  similarity := 0
  success := false
  requiredThreshold := s.currentThreshold
  points := -1000

/-- `handleTimeout` of `App`: decrement lives, clamp the score at 0 after
deducting 1000, append the timeout attempt, and either end the game (when
the decremented lives are ≤ 0) or reset the timer to 30. -/
def handleTimeout (s : AppState) : AppState :=
  let newLives := s.lives - 1
  let s1 := { s with lives := newLives,
                     score := max 0 (s.score - 1000),
                     history := s.history ++ [timeoutAttempt s] }
  if newLives ≤ 0 then
    { s1 with gameState := GameState.GAME_OVER }
  else
    { s1 with error := some (s!"시간 초과! 남은 기회: {newLives}번."),
              timeLeft := 30 }

/-- The delay argument `App` passes to `useInterval`:
`(gameState === GameState.PLAYING && !isLoading) ? 1000 : null`.
A `none` delay means the interval is torn down and no tick fires. -/
def tickDelay (s : AppState) : Option ℕ :=
  if s.gameState = GameState.PLAYING ∧ s.isLoading = false then some 1000
  else none

/-- The callback `App` passes to `useInterval`: at `timeLeft ≤ 1` the
tick fires `handleTimeout` instead of decrementing the timer. -/
def tick (s : AppState) : AppState :=
  if s.timeLeft ≤ 1 then handleTimeout s
  else { s with timeLeft := s.timeLeft - 1 }

/-- `handleSelectDifficulty` of `App` (the StartSession transition).
The fields set before the `await` of `getRandomKoreanWord` are applied
unconditionally; the oracle outcome then decides whether the session
enters `PLAYING` with the returned word or stays in
`SELECTING_DIFFICULTY` with the error surfaced.  The pre-await mutations
are not rolled back on failure, exactly as in the source. -/
def handleSelectDifficulty (s : AppState) (d : Difficulty)
    (oracle : Except String String) : AppState :=
  let s1 := { s with difficulty := some d,
                     currentThreshold := d.threshold,
                     isLoading := true,
                     error := none,
                     history := [],
                     score := 0,
                     lives := 3,
                     timeLeft := 30 }
  match oracle with
  | Except.ok firstWord =>
      { s1 with currentWord := firstWord,
                gameState := GameState.PLAYING,
                isLoading := false }
  | Except.error msg =>
      { s1 with error := some msg,
                gameState := GameState.SELECTING_DIFFICULTY,
                isLoading := false }

/-- The `allPreviouslyUsedWords` set computed at the top of
`handleSubmitWord`: every `newWord` in the history, plus the first
attempt's `previousWord` when the history is nonempty, or the current
word when it is empty. -/
def allPreviouslyUsedWords (s : AppState) : List String :=
  (s.history.map fun attempt => attempt.newWord) ++
    (match s.history with
     | [] => [s.currentWord]
     | first :: _ => [first.previousWord])

/-- `basePoints` of the success branch of `handleSubmitWord`. -/
def basePointsFor (s : AppState) (similarity : ℚ) : ℤ :=
  jsRound ((similarity - s.currentThreshold) * 10000)

/-- `roundNumber` of the success branch of `handleSubmitWord`. -/
def roundNumberFor (s : AppState) : ℤ :=
  ((s.history.filter fun h => h.success).length : ℤ) + 1

/-- `bonusPoints` of the success branch of `handleSubmitWord`. -/
def bonusPointsFor (s : AppState) (similarity : ℚ) : ℤ :=
  jsRound ((basePointsFor s similarity : ℚ) * ((roundNumberFor s : ℚ) * (2 / 10)))

/-- `totalPoints` of the success branch of `handleSubmitWord`. -/
def totalPointsFor (s : AppState) (d : Difficulty) (similarity : ℚ) : ℤ :=
  jsRound (((basePointsFor s similarity : ℚ) + (bonusPointsFor s similarity : ℚ)) * d.multiplier)

/-- The `GameAttempt` literal of the success branch of `handleSubmitWord`. -/
def successAttempt (s : AppState) (d : Difficulty) (w : String) (similarity : ℚ) :
    GameAttempt where
  previousWord := s.currentWord
  newWord := w
  similarity := similarity
  success := true
  requiredThreshold := s.currentThreshold
  points := totalPointsFor s d similarity

/-- The `GameAttempt` literal of the failure branch of `handleSubmitWord`. -/
def failAttempt (s : AppState) (w : String) (similarity : ℚ) : GameAttempt where
  previousWord := s.currentWord
  newWord := w
  similarity := similarity
  success := false
  requiredThreshold := s.currentThreshold
  points := -1000

/-- The prefix of `handleSubmitWord` up to and including
`setIsLoading(true); setError(null)`, i.e. the committed state while the
similarity oracle call is outstanding.  Returns `none` when one of the
early-return guards fires (no difficulty, empty current word, or a
previously used word), in which case no oracle call begins. -/
def submitBegin (s : AppState) (w : String) : Option AppState :=
  match s.difficulty with
  | none => none
  | some _ =>
    if s.currentWord = "" then none
    else if w ∈ allPreviouslyUsedWords s then none
    else some { s with isLoading := true, error := none }

/-- `handleSubmitWord` of `App`: guard on difficulty/current word, reject
previously used words, then score the oracle's similarity against the
current threshold, applying the success or failure updates of the
source. -/
def handleSubmitWord (s : AppState) (w : String) (oracle : Except String ℚ) :
    AppState :=
  match s.difficulty with
  | none => s
  | some difficulty =>
    if s.currentWord = "" then s
    else if w ∈ allPreviouslyUsedWords s then
      { s with error := some usedWordError }
    else
      match oracle with
      | Except.error msg => { s with isLoading := false, error := some msg }
      | Except.ok similarity =>
        if s.currentThreshold ≤ similarity then
          { s with history := s.history ++ [successAttempt s difficulty w similarity],
                   score := s.score + totalPointsFor s difficulty similarity,
                   currentWord := w,
                   currentThreshold := s.currentThreshold + 1 / 100,
                   lives := 3,
                   timeLeft := 30,
                   isLoading := false,
                   error := none }
        else
          let newLives := s.lives - 1
          let s1 := { s with lives := newLives,
                             score := max 0 (s.score - 1000),
                             history := s.history ++ [failAttempt s w similarity],
                             isLoading := false,
                             error := none }
          if newLives ≤ 0 then { s1 with gameState := GameState.GAME_OVER }
          else { s1 with error := some (s!"유사도 부족! 남은 기회: {newLives}번."),
                         timeLeft := 30 }

/-- `handleRestart` of `App`.  Note that it does not touch `lives` or
`timeLeft`. -/
def handleRestart (s : AppState) : AppState :=
  { s with gameState := GameState.SELECTING_DIFFICULTY,
           difficulty := none,
           currentThreshold := 0,
           score := 0,
           currentWord := "",
           history := [],
           error := none }

/-- The discrete events driving the session engine; oracle outcomes are
attached to the event that awaits them. -/
inductive Event
  | select (d : Difficulty) (oracle : Except String String)
  | tick
  | submit (w : String) (oracle : Except String ℚ)
  | restart

/-- One dispatched transition.  The guards are the dispatch conditions of
the source: the difficulty selector is mounted (and its buttons enabled)
only in `SELECTING_DIFFICULTY` while not loading; `useInterval` receives a
non-null delay only while `PLAYING` and not loading; the game screen's
submit form is mounted only while `PLAYING` and is disabled while
loading; the restart button is on the game-over screen. -/
def step (s : AppState) : Event → Option AppState
  | Event.select d oracle =>
      if s.gameState = GameState.SELECTING_DIFFICULTY ∧ s.isLoading = false then
        some (handleSelectDifficulty s d oracle)
      else none
  | Event.tick =>
      if s.gameState = GameState.PLAYING ∧ s.isLoading = false then
        some (tick s)
      else none
  | Event.submit w oracle =>
      if s.gameState = GameState.PLAYING ∧ s.isLoading = false then
        some (handleSubmitWord s w oracle)
      else none
  | Event.restart =>
      if s.gameState = GameState.GAME_OVER then some (handleRestart s)
      else none

/-- Run a list of events from a state; `none` if some event is not
enabled at its turn. -/
def run (s : AppState) : List Event → Option AppState
  | [] => some s
  | e :: es =>
    match step s e with
    | none => none
    | some t => run t es

/-- States reachable from the initial state through enabled steps. -/
inductive Reachable : AppState → Prop
  | init : Reachable initialState
  | next (e : Event) {s t : AppState} : Reachable s → step s e = some t → Reachable t

/-- The `LeaderboardEntry` interface of the leaderboard service. -/
structure LeaderboardEntry where
  name : String
  score : ℤ
deriving DecidableEq

/-- The scanning loop of `calculateRank` (game-over screen): the first
index whose entry the candidate strictly beats or ties yields that
index plus one. -/
def rankLoop (scoreToRank : ℤ) : List LeaderboardEntry → ℕ → Option ℕ
  | [], _ => none
  | entry :: rest, i =>
    if entry.score < scoreToRank then some (i + 1)
    else if scoreToRank = entry.score then some (i + 1)
    else rankLoop scoreToRank rest (i + 1)

/-- `calculateRank` of the game-over screen. -/
def calculateRank (scoreToRank : ℤ) (leaderboard : List LeaderboardEntry) :
    Option ℕ :=
  if scoreToRank ≤ 0 then none
  else
    match rankLoop scoreToRank leaderboard 0 with
    | some r => some r
    | none =>
      if leaderboard.length < 3 then some (leaderboard.length + 1)
      else none

/-- Index of the first entry, scanning in order, whose score the
candidate meets or exceeds (written from the spec's wording of the rank
contract, for comparison with `calculateRank`). -/
def firstGeIdx (c : ℤ) : List LeaderboardEntry → Option ℕ
  | [] => none
  | e :: rest =>
    if e.score ≤ c then some 0
    else (firstGeIdx c rest).map (· + 1)

/-- The rank evaluator contract as the spec words it: `none` for a
non-positive candidate; otherwise one plus the first qualifying index;
otherwise `length + 1` when fewer than 3 entries; otherwise `none`. -/
def rankSpec (candidateScore : ℤ) (leaderboard : List LeaderboardEntry) :
    Option ℕ :=
  if candidateScore ≤ 0 then none
  else
    match firstGeIdx candidateScore leaderboard with
    | some i => some (i + 1)
    | none =>
      if leaderboard.length < 3 then some (leaderboard.length + 1)
      else none

/-- The invariant tying lives to the game phase that actually holds for
the engine. -/
def LivesInv (s : AppState) : Prop :=
  0 ≤ s.lives ∧ s.lives ≤ 3 ∧
    (s.gameState = GameState.GAME_OVER → s.lives = 0) ∧
    (s.gameState = GameState.PLAYING → 1 ≤ s.lives)

/-- The timer-range invariant for the playing phase. -/
def TimerInv (s : AppState) : Prop :=
  s.gameState = GameState.PLAYING → 1 ≤ s.timeLeft ∧ s.timeLeft ≤ 30

/-- Every word other than the timeout marker occurs at most once as a
`newWord` in the history. -/
def NodupNonMarker (s : AppState) : Prop :=
  ∀ v, v ≠ timeoutMarker → ((s.history.map fun a => a.newWord).count v) ≤ 1

/-- The predefined easy difficulty of the difficulty selector. -/
def dEasy : Difficulty where
  name := "쉬움"
  threshold := 1 / 4
  multiplier := 1 / 4

/-- The predefined hard difficulty of the difficulty selector. -/
def dHard : Difficulty where
  name := "어려움"
  threshold := 3 / 4
  multiplier := 2

/-- A custom difficulty with threshold 0.5 and multiplier 2.0, as in the
spec's scoring scenario. -/
def dCustom : Difficulty where
  name := "커스텀"
  threshold := 1 / 2
  multiplier := 2

/-- The state right after a successful session start at `dCustom`. -/
def customStart : AppState :=
  handleSelectDifficulty initialState dCustom (Except.ok "사과")

/-- The state of `customStart` while a submission of "바다" is in
flight. -/
def inFlightState : AppState :=
  { customStart with isLoading := true, error := none }

/-- A session state after a completed game: phase `GAME_OVER`, no lives
left, with a difficulty and a current word still set. -/
def gameOverState : AppState where
  gameState := GameState.GAME_OVER
  difficulty := some dHard
  currentThreshold := 3 / 4
  score := 0
  currentWord := "사과"
  history := []
  lives := 0
  isLoading := false
  error := none
  timeLeft := 30

/-- An event trace driving a fresh session through three failed
submissions into `GAME_OVER` and then restarting. -/
def restartTraceEvents : List Event :=
  [Event.select dEasy (Except.ok "사과"),
   Event.submit "바다" (Except.ok 0),
   Event.submit "하늘" (Except.ok 0),
   Event.submit "구름" (Except.ok 0),
   Event.restart]

/-- An event trace driving a fresh session through three failed
submissions into `GAME_OVER` (without restarting). -/
def threeFailEvents : List Event :=
  [Event.select dHard (Except.ok "사과"),
   Event.submit "바다" (Except.ok 0),
   Event.submit "하늘" (Except.ok 0),
   Event.submit "구름" (Except.ok 0)]

/-- An event trace in which the player successfully submits the literal
timeout-marker string as a word and then lets the round time out. -/
def markerTraceEvents : List Event :=
  Event.select { name := "쉬움", threshold := 1 / 4, multiplier := 1 } (Except.ok "사과") ::
    Event.submit timeoutMarker (Except.ok (9 / 10)) ::
    List.replicate 30 Event.tick

unseal Rat.mul Rat.add Rat.sub Rat.inv

/-- The scanning loop of `calculateRank` finds exactly the first index
whose entry score the candidate meets or exceeds, offset by the starting
index. -/
theorem rankLoop_eq_firstGeIdx (c : ℤ) :
    ∀ (lb : List LeaderboardEntry) (i : ℕ),
      rankLoop c lb i = (firstGeIdx c lb).map fun j => i + j + 1
  | [], _ => rfl
  | e :: rest, i => by
    unfold rankLoop firstGeIdx
    by_cases h1 : e.score < c
    · have hle : e.score ≤ c := le_of_lt h1
      simp [h1, hle]
    · by_cases h2 : c = e.score
      · have hle : e.score ≤ c := le_of_eq h2.symm
        simp [h1, h2, hle]
      · have h3 : ¬e.score ≤ c := by omega
        simp only [if_neg h1, if_neg h2, if_neg h3,
          rankLoop_eq_firstGeIdx c rest (i + 1)]
        cases firstGeIdx c rest with
        | none => simp
        | some j => simp; omega

/-- Claim C2 (amended): `calculateRank` returns `None` when the
candidate score is ≤ 0, otherwise one plus the index of the first entry,
scanning in order, whose score the candidate meets or exceeds (a tie
yields the incumbent's rank); if no entry qualifies it returns
`length + 1` when the leaderboard has fewer than 3 entries and `None`
otherwise.  Concretely: score 0 gives `None`; score 300 against
[500, 300, 100] gives rank 2; score 50 against only 2 entries gives
rank 3; score 50 against 3 entries all strictly greater than 50 gives
`None` (with a tie at 50 the scan yields rank 3 instead, see the
counterexample). -/
theorem calculateRank_matches_contract (c : ℤ) (lb : List LeaderboardEntry) :
    calculateRank c lb = rankSpec c lb ∧
    calculateRank 0 lb = none ∧
    calculateRank 300 [⟨"가", 500⟩, ⟨"나", 300⟩, ⟨"다", 100⟩] = some 2 ∧
    calculateRank 50 [⟨"가", 500⟩, ⟨"나", 300⟩] = some 3 ∧
    calculateRank 50 [⟨"가", 100⟩, ⟨"나", 60⟩, ⟨"다", 51⟩] = none := by
  refine ⟨?_, by simp [calculateRank], by decide, by decide, by decide⟩
  unfold calculateRank rankSpec
  by_cases h : c ≤ 0
  · simp [h]
  · simp only [if_neg h, rankLoop_eq_firstGeIdx]
    cases firstGeIdx c lb <;> simp

/-- Counterexample to claim C2 as stated: a candidate score of 50
against a full leaderboard whose entries all have score ≥ 50 does not
give `None`; the tie with the third entry yields rank 3. -/
theorem calculateRank_tie_full_board_cex :
    ((50 : ℤ) ≤ 100 ∧ (50 : ℤ) ≤ 60 ∧ (50 : ℤ) ≤ 50) ∧
    calculateRank 50 [⟨"가", 100⟩, ⟨"나", 60⟩, ⟨"다", 50⟩] = some 3 := by
  decide

/-- Claim C3 (amended): when the starting-word oracle call of
StartSession fails, the session stays in `SELECTING_DIFFICULTY`, the
error message is surfaced, and the current word is untouched; but
`difficulty`, `threshold`, `score`, `lives`, `timeRemaining` and
`history` have already been set to the fresh-session values (the
selected difficulty, its threshold, 0, 3, 30 and the empty history)
before the oracle call and are not rolled back. -/
theorem startSession_failure_spec (s : AppState) (d : Difficulty) (msg : String) :
    handleSelectDifficulty s d (Except.error msg) =
      { s with gameState := GameState.SELECTING_DIFFICULTY,
               difficulty := some d,
               currentThreshold := d.threshold,
               score := 0,
               lives := 3,
               timeLeft := 30,
               history := [],
               error := some msg,
               isLoading := false } := rfl

/-- Counterexample to claim C3 as stated: from the initial state, a
StartSession at the hard difficulty whose oracle call fails does keep
the phase at `SELECTING_DIFFICULTY` and surface the error, but the
`difficulty` and `threshold` fields are not as they were before the
call: they already hold the selected difficulty and its threshold. -/
theorem startSession_failure_not_atomic_cex :
    (handleSelectDifficulty initialState dHard (Except.error "오류")).gameState
        = GameState.SELECTING_DIFFICULTY ∧
    (handleSelectDifficulty initialState dHard (Except.error "오류")).error
        = some "오류" ∧
    (handleSelectDifficulty initialState dHard (Except.error "오류")).currentThreshold
        ≠ initialState.currentThreshold ∧
    (handleSelectDifficulty initialState dHard (Except.error "오류")).difficulty
        ≠ initialState.difficulty := by
  decide

/-- Claim C1: a successful submission (similarity at or above the
current threshold, after the guards pass) appends a success attempt,
adds `totalPoints` to the score, replaces the current word, raises the
threshold by 0.01, resets lives to 3 and the timer to 30, where the
points are computed by `basePointsFor`, `bonusPointsFor` and
`totalPointsFor` exactly as the spec's formulas state. -/
theorem submitWord_success_spec (s : AppState) (d : Difficulty) (w : String)
    (sim : ℚ) (hd : s.difficulty = some d) (hcw : s.currentWord ≠ "")
    (hw : w ∉ allPreviouslyUsedWords s) (hsim : s.currentThreshold ≤ sim) :
    handleSubmitWord s w (Except.ok sim) =
      { s with history := s.history ++ [successAttempt s d w sim],
               score := s.score + totalPointsFor s d sim,
               currentWord := w,
               currentThreshold := s.currentThreshold + 1 / 100,
               lives := 3,
               timeLeft := 30,
               isLoading := false,
               error := none } := by
  unfold handleSubmitWord
  rw [hd]
  simp only [if_neg hcw, if_neg hw, if_pos hsim]

/-- Witness for claim C1 at the spec's scenario: threshold 0.5,
multiplier 2.0, similarity 0.65 on the first attempt gives base points
1500, bonus 300, total points 3600. -/
theorem submitWord_success_spec_witness :
    (basePointsFor customStart (13 / 20) = 1500 ∧
     bonusPointsFor customStart (13 / 20) = 300 ∧
     totalPointsFor customStart dCustom (13 / 20) = 3600) ∧
    handleSubmitWord customStart "바나나" (Except.ok (13 / 20)) =
      { customStart with
          history := customStart.history ++ [successAttempt customStart dCustom "바나나" (13 / 20)],
          score := customStart.score + totalPointsFor customStart dCustom (13 / 20),
          currentWord := "바나나",
          currentThreshold := customStart.currentThreshold + 1 / 100,
          lives := 3,
          timeLeft := 30,
          isLoading := false,
          error := none } :=
  ⟨by decide,
   submitWord_success_spec customStart dCustom "바나나" (13 / 20)
     (by decide) (by decide) (by decide) (by decide)⟩

/-- Claim C5: when the similarity oracle call of a submission fails, the
error message is surfaced and nothing else changes: no attempt is
recorded, and lives, timer, score, threshold, current word and phase are
exactly as before the call. -/
theorem submitWord_oracle_failure_spec (s : AppState) (d : Difficulty)
    (w msg : String) (hd : s.difficulty = some d) (hcw : s.currentWord ≠ "")
    (hw : w ∉ allPreviouslyUsedWords s) :
    handleSubmitWord s w (Except.error msg) =
      { s with isLoading := false, error := some msg } := by
  unfold handleSubmitWord
  rw [hd]
  simp only [if_neg hcw, if_neg hw]

/-- Witness for claim C5: a failing oracle call on a fresh submission
from `customStart` only records the error message. -/
theorem submitWord_oracle_failure_spec_witness :
    handleSubmitWord customStart "바나나" (Except.error "통신 실패") =
      { customStart with isLoading := false, error := some "통신 실패" } :=
  submitWord_oracle_failure_spec customStart dCustom "바나나" "통신 실패"
    (by decide) (by decide) (by decide)

/-- Claim C7: a timeout appends the timeout attempt (marker word,
similarity 0, success false, points -1000), decrements lives, clamps the
score at `max 0 (score - 1000)` and leaves the current word unchanged;
when lives reach 0 the phase becomes `GAME_OVER`, otherwise the timer
resets to 30 and the phase stays `PLAYING`. -/
theorem timeout_spec (s : AppState) (hp : s.gameState = GameState.PLAYING) :
    timeoutAttempt s =
      { previousWord := s.currentWord, newWord := timeoutMarker, similarity := 0,
        success := false, requiredThreshold := s.currentThreshold, points := -1000 } ∧
    (handleTimeout s).history = s.history ++ [timeoutAttempt s] ∧
    (handleTimeout s).lives = s.lives - 1 ∧
    (handleTimeout s).score = max 0 (s.score - 1000) ∧
    (handleTimeout s).currentWord = s.currentWord ∧
    (s.lives = 1 → (handleTimeout s).gameState = GameState.GAME_OVER) ∧
    (2 ≤ s.lives →
      (handleTimeout s).gameState = GameState.PLAYING ∧
        (handleTimeout s).timeLeft = 30) := by
  unfold handleTimeout timeoutAttempt
  by_cases h : s.lives - 1 ≤ 0
  · simp [h, hp]
    omega
  · simp [h, hp]
    omega

/-- Witness for claim C7 at the concrete playing state `customStart`
(3 lives): the timeout decrements lives to 2, keeps the phase `PLAYING`
and resets the timer. -/
theorem timeout_spec_witness :
    timeoutAttempt customStart =
      { previousWord := customStart.currentWord, newWord := timeoutMarker,
        similarity := 0, success := false,
        requiredThreshold := customStart.currentThreshold, points := -1000 } ∧
    (handleTimeout customStart).history
        = customStart.history ++ [timeoutAttempt customStart] ∧
    (handleTimeout customStart).lives = customStart.lives - 1 ∧
    (handleTimeout customStart).score = max 0 (customStart.score - 1000) ∧
    (handleTimeout customStart).currentWord = customStart.currentWord ∧
    (customStart.lives = 1 →
      (handleTimeout customStart).gameState = GameState.GAME_OVER) ∧
    (2 ≤ customStart.lives →
      (handleTimeout customStart).gameState = GameState.PLAYING ∧
        (handleTimeout customStart).timeLeft = 30) :=
  timeout_spec customStart (by decide)

/-- Claim C9: once a submission has begun (the guards passed and the
loading flag is committed before the oracle call), the interval delay is
`none`, so no tick fires — neither a timer decrement nor a timeout — and
the dispatched tick event is disabled until the submission resolves,
which clears the loading flag again. -/
theorem submission_suspends_ticks (s t : AppState) (w : String)
    (o : Except String ℚ) (h : submitBegin s w = some t) :
    tickDelay t = none ∧
    step t Event.tick = none ∧
    (handleSubmitWord s w o).isLoading = false := by
  unfold submitBegin at h
  rcases hd : s.difficulty with _ | d <;> rw [hd] at h
  · exact absurd h (by simp)
  · by_cases hcw : s.currentWord = ""
    · rw [if_pos hcw] at h
      exact absurd h (by simp)
    · rw [if_neg hcw] at h
      by_cases hw : w ∈ allPreviouslyUsedWords s
      · rw [if_pos hw] at h
        exact absurd h (by simp)
      · rw [if_neg hw] at h
        injection h with h
        subst h
        refine ⟨by simp [tickDelay], by simp [step], ?_⟩
        unfold handleSubmitWord
        rw [hd]
        simp only [if_neg hcw, if_neg hw]
        rcases o with msg | sim
        · rfl
        · by_cases hsim : s.currentThreshold ≤ sim
          · simp only [if_pos hsim]
          · simp only [if_neg hsim]
            by_cases hz : s.lives - 1 ≤ 0 <;> simp [hz]

/-- Witness for claim C9: with the submission of "바다" from
`customStart` in flight, the interval is torn down and no tick event can
fire. -/
theorem submission_suspends_ticks_witness :
    tickDelay inFlightState = none ∧
    step inFlightState Event.tick = none ∧
    (handleSubmitWord customStart "바다" (Except.ok 0)).isLoading = false :=
  submission_suspends_ticks customStart inFlightState "바다" (Except.ok 0)
    (by decide)

/-- Case analysis of `handleSubmitWord`: either nothing relevant changes
(guards or oracle failure), or a success resets lives and the timer, or
a failure decrements lives, fatally or not. -/
theorem handleSubmitWord_cases (s : AppState) (w : String) (o : Except String ℚ) :
    ((handleSubmitWord s w o).lives = s.lives ∧
     (handleSubmitWord s w o).gameState = s.gameState ∧
     (handleSubmitWord s w o).timeLeft = s.timeLeft ∧
     (handleSubmitWord s w o).history = s.history) ∨
    (w ∉ allPreviouslyUsedWords s ∧
     (handleSubmitWord s w o).lives = 3 ∧
     (handleSubmitWord s w o).gameState = s.gameState ∧
     (handleSubmitWord s w o).timeLeft = 30 ∧
     ∃ d sim, (handleSubmitWord s w o).history
        = s.history ++ [successAttempt s d w sim]) ∨
    (w ∉ allPreviouslyUsedWords s ∧ s.lives - 1 ≤ 0 ∧
     (handleSubmitWord s w o).lives = s.lives - 1 ∧
     (handleSubmitWord s w o).gameState = GameState.GAME_OVER ∧
     (handleSubmitWord s w o).timeLeft = s.timeLeft ∧
     ∃ sim, (handleSubmitWord s w o).history = s.history ++ [failAttempt s w sim]) ∨
    (w ∉ allPreviouslyUsedWords s ∧ 1 ≤ s.lives - 1 ∧
     (handleSubmitWord s w o).lives = s.lives - 1 ∧
     (handleSubmitWord s w o).gameState = s.gameState ∧
     (handleSubmitWord s w o).timeLeft = 30 ∧
     ∃ sim, (handleSubmitWord s w o).history = s.history ++ [failAttempt s w sim]) := by
  rcases hd : s.difficulty with _ | d
  · left
    refine ⟨?_, ?_, ?_, ?_⟩ <;> simp [handleSubmitWord, hd]
  · by_cases hcw : s.currentWord = ""
    · left
      refine ⟨?_, ?_, ?_, ?_⟩ <;> simp [handleSubmitWord, hd, hcw]
    · by_cases hw : w ∈ allPreviouslyUsedWords s
      · left
        refine ⟨?_, ?_, ?_, ?_⟩ <;> simp [handleSubmitWord, hd, hcw, hw]
      · rcases o with msg | sim
        · left
          refine ⟨?_, ?_, ?_, ?_⟩ <;> simp [handleSubmitWord, hd, hcw, hw]
        · by_cases hsim : s.currentThreshold ≤ sim
          · right; left
            refine ⟨hw, ?_, ?_, ?_, d, sim, ?_⟩ <;>
              simp [handleSubmitWord, hd, hcw, hw, hsim]
          · by_cases hz : s.lives - 1 ≤ 0
            · right; right; left
              refine ⟨hw, hz, ?_, ?_, ?_, sim, ?_⟩ <;>
                simp [handleSubmitWord, hd, hcw, hw, hsim, hz]
            · right; right; right
              refine ⟨hw, by omega, ?_, ?_, ?_, sim, ?_⟩ <;>
                simp [handleSubmitWord, hd, hcw, hw, hsim, hz]

/-- `LivesInv` is preserved by every enabled step. -/
theorem livesInv_step {s t : AppState} (e : Event) (hs : LivesInv s)
    (ht : step s e = some t) : LivesInv t := by
  obtain ⟨h0, h3, hgo, hpl⟩ := hs
  cases e with
  | select d oracle =>
    simp only [step] at ht
    by_cases hg : s.gameState = GameState.SELECTING_DIFFICULTY ∧ s.isLoading = false
    · rw [if_pos hg] at ht
      injection ht with ht
      subst ht
      rcases oracle with msg | word <;>
        refine ⟨?_, ?_, ?_, ?_⟩ <;> simp [handleSelectDifficulty]
    · rw [if_neg hg] at ht
      exact Option.noConfusion ht
  | tick =>
    simp only [step] at ht
    by_cases hg : s.gameState = GameState.PLAYING ∧ s.isLoading = false
    · rw [if_pos hg] at ht
      injection ht with ht
      subst ht
      have h1 : 1 ≤ s.lives := hpl hg.1
      unfold tick
      by_cases hT : s.timeLeft ≤ 1
      · rw [if_pos hT]
        unfold handleTimeout
        by_cases hz : s.lives - 1 ≤ 0
        · refine ⟨?_, ?_, ?_, ?_⟩ <;> simp [hz] <;> omega
        · refine ⟨?_, ?_, ?_, ?_⟩ <;> simp [hz, hg.1] <;> omega
      · rw [if_neg hT]
        exact ⟨h0, h3, hgo, hpl⟩
    · rw [if_neg hg] at ht
      exact Option.noConfusion ht
  | submit w o =>
    simp only [step] at ht
    by_cases hg : s.gameState = GameState.PLAYING ∧ s.isLoading = false
    · rw [if_pos hg] at ht
      injection ht with ht
      subst ht
      have h1 : 1 ≤ s.lives := hpl hg.1
      rcases handleSubmitWord_cases s w o with
        ⟨hl, hgs, -, -⟩ | ⟨-, hl, hgs, -, -⟩ | ⟨-, hz, hl, hgs, -, -⟩ |
        ⟨-, hz, hl, hgs, -, -⟩ <;>
        refine ⟨?_, ?_, ?_, ?_⟩ <;> simp [hl, hgs, hg.1] <;> omega
    · rw [if_neg hg] at ht
      exact Option.noConfusion ht
  | restart =>
    simp only [step] at ht
    by_cases hg : s.gameState = GameState.GAME_OVER
    · rw [if_pos hg] at ht
      injection ht with ht
      subst ht
      have hz : s.lives = 0 := hgo hg
      refine ⟨?_, ?_, ?_, ?_⟩ <;> simp [handleRestart, hz]
    · rw [if_neg hg] at ht
      exact Option.noConfusion ht

/-- Claim C4 (amended): after every transition, lives stay in `[0, 3]`;
`GAME_OVER` always means 0 lives, and 0 lives excludes the `PLAYING`
phase.  The converse `lives = 0 → phase = GAME_OVER` fails after
Restart, which returns to `SELECTING_DIFFICULTY` without resetting
lives (see the counterexample), so it is weakened to
`lives = 0 → phase ≠ PLAYING`. -/
theorem lives_phase_invariant (s : AppState) (hs : Reachable s) :
    (0 ≤ s.lives ∧ s.lives ≤ 3) ∧
    (s.gameState = GameState.GAME_OVER → s.lives = 0) ∧
    (s.lives = 0 → s.gameState ≠ GameState.PLAYING) := by
  have h : LivesInv s := by
    induction hs with
    | init => exact ⟨by decide, by decide, by decide, by decide⟩
    | next e hr ht ih => exact livesInv_step e ih ht
  obtain ⟨h0, h3, hgo, hpl⟩ := h
  refine ⟨⟨h0, h3⟩, hgo, fun hz hp => ?_⟩
  have := hpl hp
  omega

/-- Witness for claim C4 at the initial state. -/
theorem lives_phase_invariant_witness :
    (0 ≤ initialState.lives ∧ initialState.lives ≤ 3) ∧
    (initialState.gameState = GameState.GAME_OVER → initialState.lives = 0) ∧
    (initialState.lives = 0 → initialState.gameState ≠ GameState.PLAYING) :=
  lives_phase_invariant initialState Reachable.init

/-- Counterexample to claim C4 as stated: driving a fresh easy session
through three failed submissions into `GAME_OVER` and then restarting
reaches a state whose phase is `SELECTING_DIFFICULTY` while lives are
still 0, because `handleRestart` does not reset lives — so
`phase = GAME_OVER ↔ lives = 0` fails after the Restart transition. -/
theorem restart_keeps_zero_lives_cex :
    (run initialState restartTraceEvents).map (fun s => (s.gameState, s.lives)) =
      some (GameState.SELECTING_DIFFICULTY, 0) := by
  decide

/-- `TimerInv` is preserved by every enabled step. -/
theorem timerInv_step {s t : AppState} (e : Event) (hs : TimerInv s)
    (ht : step s e = some t) : TimerInv t := by
  cases e with
  | select d oracle =>
    simp only [step] at ht
    by_cases hg : s.gameState = GameState.SELECTING_DIFFICULTY ∧ s.isLoading = false
    · rw [if_pos hg] at ht
      injection ht with ht
      subst ht
      rcases oracle with msg | word <;> intro hp <;>
        simp [handleSelectDifficulty] at hp ⊢
    · rw [if_neg hg] at ht
      exact Option.noConfusion ht
  | tick =>
    simp only [step] at ht
    by_cases hg : s.gameState = GameState.PLAYING ∧ s.isLoading = false
    · rw [if_pos hg] at ht
      injection ht with ht
      subst ht
      have hb := hs hg.1
      unfold tick
      by_cases hT : s.timeLeft ≤ 1
      · rw [if_pos hT]
        unfold handleTimeout
        by_cases hz : s.lives - 1 ≤ 0
        · intro hp
          simp [hz] at hp
        · intro hp
          simp [hz]
      · rw [if_neg hT]
        intro hp
        show 1 ≤ s.timeLeft - 1 ∧ s.timeLeft - 1 ≤ 30
        omega
    · rw [if_neg hg] at ht
      exact Option.noConfusion ht
  | submit w o =>
    simp only [step] at ht
    by_cases hg : s.gameState = GameState.PLAYING ∧ s.isLoading = false
    · rw [if_pos hg] at ht
      injection ht with ht
      subst ht
      rcases handleSubmitWord_cases s w o with
        ⟨-, hgs, hT, -⟩ | ⟨-, -, hgs, hT, -⟩ | ⟨-, -, -, hgs, hT, -⟩ |
        ⟨-, -, -, hgs, hT, -⟩ <;> intro hp <;> rw [hT]
      · exact hs (hgs ▸ hp)
      · omega
      · rw [hgs] at hp
        exact absurd hp (by decide)
      · omega
    · rw [if_neg hg] at ht
      exact Option.noConfusion ht
  | restart =>
    simp only [step] at ht
    by_cases hg : s.gameState = GameState.GAME_OVER
    · rw [if_pos hg] at ht
      injection ht with ht
      subst ht
      intro hp
      simp [handleRestart] at hp
    · rw [if_neg hg] at ht
      exact Option.noConfusion ht

/-- Claim C10: while the phase is `PLAYING`, the timer is always in
`[1, 30]` and in particular never 0; moreover a tick arriving with the
timer at (or below) 1 fires the timeout instead of decrementing. -/
theorem playing_timer_range (s : AppState) (hs : Reachable s) :
    (s.gameState = GameState.PLAYING → 1 ≤ s.timeLeft ∧ s.timeLeft ≤ 30) ∧
    (s.timeLeft ≤ 1 → tick s = handleTimeout s) := by
  constructor
  · have h : TimerInv s := by
      induction hs with
      | init => exact fun hp => by decide
      | next e hr ht ih => exact timerInv_step e ih ht
    exact h
  · intro h
    unfold tick
    rw [if_pos h]

/-- Witness for claim C10 at the concrete playing state `customStart`
(reached from the initial state by one enabled select step). -/
theorem playing_timer_range_witness :
    (customStart.gameState = GameState.PLAYING →
      1 ≤ customStart.timeLeft ∧ customStart.timeLeft ≤ 30) ∧
    (customStart.timeLeft ≤ 1 → tick customStart = handleTimeout customStart) :=
  playing_timer_range customStart
    (Reachable.next (Event.select dCustom (Except.ok "사과")) Reachable.init
      (by decide))

/-- Appending one attempt keeps the per-word count of `newWord`
occurrences at most 1, provided the appended word was not yet present
(or the count is checked for a different word). -/
theorem count_newWord_append (l : List GameAttempt) (a : GameAttempt) (v : String)
    (hv : v = a.newWord → (l.map fun x => x.newWord).count v = 0)
    (hl : (l.map fun x => x.newWord).count v ≤ 1) :
    ((l ++ [a]).map fun x => x.newWord).count v ≤ 1 := by
  rw [List.map_append, List.count_append]
  by_cases hvw : v = a.newWord
  · rw [hv hvw]
    have h1 : (([a]).map fun x => x.newWord).count v ≤ 1 := by
      simp [hvw]
    omega
  · have h0 : (([a]).map fun x => x.newWord).count v = 0 :=
      List.count_eq_zero.mpr (by simp [hvw])
    rw [h0]
    omega

/-- `NodupNonMarker` is preserved by every enabled step: submissions
only append words that passed the used-word check, and timeouts only
append the marker. -/
theorem nodup_step {s t : AppState} (e : Event) (hs : NodupNonMarker s)
    (ht : step s e = some t) : NodupNonMarker t := by
  cases e with
  | select d oracle =>
    simp only [step] at ht
    by_cases hg : s.gameState = GameState.SELECTING_DIFFICULTY ∧ s.isLoading = false
    · rw [if_pos hg] at ht
      injection ht with ht
      subst ht
      rcases oracle with msg | word <;> intro v hv <;> simp [handleSelectDifficulty]
    · rw [if_neg hg] at ht
      exact Option.noConfusion ht
  | tick =>
    simp only [step] at ht
    by_cases hg : s.gameState = GameState.PLAYING ∧ s.isLoading = false
    · rw [if_pos hg] at ht
      injection ht with ht
      subst ht
      unfold tick
      by_cases hT : s.timeLeft ≤ 1
      · rw [if_pos hT]
        unfold handleTimeout
        intro v hv
        by_cases hz : s.lives - 1 ≤ 0
        · simp only [if_pos hz]
          exact count_newWord_append s.history (timeoutAttempt s) v
            (fun h => absurd h hv) (hs v hv)
        · simp only [if_neg hz]
          exact count_newWord_append s.history (timeoutAttempt s) v
            (fun h => absurd h hv) (hs v hv)
      · rw [if_neg hT]
        exact hs
    · rw [if_neg hg] at ht
      exact Option.noConfusion ht
  | submit w o =>
    simp only [step] at ht
    by_cases hg : s.gameState = GameState.PLAYING ∧ s.isLoading = false
    · rw [if_pos hg] at ht
      injection ht with ht
      subst ht
      rcases handleSubmitWord_cases s w o with
        ⟨-, -, -, hh⟩ | ⟨hw, -, -, -, d, sim, hh⟩ | ⟨hw, -, -, -, -, sim, hh⟩ |
        ⟨hw, -, -, -, -, sim, hh⟩ <;> intro v hv <;> rw [hh]
      · exact hs v hv
      · have hwm : w ∉ (s.history.map fun x => x.newWord) :=
          fun hmem => hw (List.mem_append_left _ hmem)
        exact count_newWord_append s.history (successAttempt s d w sim) v
          (fun h => by rw [h]; exact List.count_eq_zero.mpr hwm) (hs v hv)
      · have hwm : w ∉ (s.history.map fun x => x.newWord) :=
          fun hmem => hw (List.mem_append_left _ hmem)
        exact count_newWord_append s.history (failAttempt s w sim) v
          (fun h => by rw [h]; exact List.count_eq_zero.mpr hwm) (hs v hv)
      · have hwm : w ∉ (s.history.map fun x => x.newWord) :=
          fun hmem => hw (List.mem_append_left _ hmem)
        exact count_newWord_append s.history (failAttempt s w sim) v
          (fun h => by rw [h]; exact List.count_eq_zero.mpr hwm) (hs v hv)
    · rw [if_neg hg] at ht
      exact Option.noConfusion ht
  | restart =>
    simp only [step] at ht
    by_cases hg : s.gameState = GameState.GAME_OVER
    · rw [if_pos hg] at ht
      injection ht with ht
      subst ht
      intro v hv
      simp [handleRestart]
    · rw [if_neg hg] at ht
      exact Option.noConfusion ht

/-- Every reachable state satisfies `NodupNonMarker`. -/
theorem nodup_reachable (s : AppState) (hs : Reachable s) : NodupNonMarker s := by
  induction hs with
  | init => intro v hv; simp [initialState]
  | next e hr ht ih => exact nodup_step e ih ht

/-- A submission of an already-used word is independent of the oracle
outcome: the oracle is never consulted. -/
theorem handleSubmitWord_oracle_irrelevant (s : AppState) (w : String)
    (o o' : Except String ℚ) (hw : w ∈ allPreviouslyUsedWords s) :
    handleSubmitWord s w o = handleSubmitWord s w o' := by
  rcases hd : s.difficulty with _ | d
  · simp [handleSubmitWord, hd]
  · by_cases hcw : s.currentWord = ""
    · simp [handleSubmitWord, hd, hcw]
    · simp [handleSubmitWord, hd, hcw, hw]

/-- A submission of an already-used word leaves score, lives, timer and
history untouched. -/
theorem handleSubmitWord_rejected (s : AppState) (w : String)
    (o : Except String ℚ) (hw : w ∈ allPreviouslyUsedWords s) :
    (handleSubmitWord s w o).score = s.score ∧
    (handleSubmitWord s w o).lives = s.lives ∧
    (handleSubmitWord s w o).timeLeft = s.timeLeft ∧
    (handleSubmitWord s w o).history = s.history := by
  rcases hd : s.difficulty with _ | d
  · refine ⟨?_, ?_, ?_, ?_⟩ <;> simp [handleSubmitWord, hd]
  · by_cases hcw : s.currentWord = ""
    · refine ⟨?_, ?_, ?_, ?_⟩ <;> simp [handleSubmitWord, hd, hcw]
    · refine ⟨?_, ?_, ?_, ?_⟩ <;> simp [handleSubmitWord, hd, hcw, hw]

/-- Claim C6 (amended): in every reachable state, submitting a word
already in `usedWords` is rejected before the oracle is called (the
result does not depend on the oracle outcome) and mutates none of
score, lives, timer or history; every word other than the timeout
marker occurs at most once as a `newWord` in the history, and in
particular the current word occurs at most once whenever it differs
from the timeout marker.  (The unconditional uniqueness of the claim
fails when the player plays the literal marker string, see the
counterexample.) -/
theorem usedWord_rejected_and_unique (s : AppState) (hs : Reachable s)
    (w : String) (o o' : Except String ℚ) (hw : w ∈ allPreviouslyUsedWords s) :
    handleSubmitWord s w o = handleSubmitWord s w o' ∧
    (handleSubmitWord s w o).score = s.score ∧
    (handleSubmitWord s w o).lives = s.lives ∧
    (handleSubmitWord s w o).timeLeft = s.timeLeft ∧
    (handleSubmitWord s w o).history = s.history ∧
    (∀ v, v ≠ timeoutMarker → ((s.history.map fun a => a.newWord).count v) ≤ 1) ∧
    (s.currentWord ≠ timeoutMarker →
      ((s.history.map fun a => a.newWord).count s.currentWord) ≤ 1) := by
  have hn := nodup_reachable s hs
  obtain ⟨h1, h2, h3, h4⟩ := handleSubmitWord_rejected s w o hw
  exact ⟨handleSubmitWord_oracle_irrelevant s w o o' hw, h1, h2, h3, h4,
    hn, fun hcm => hn s.currentWord hcm⟩

/-- Witness for claim C6: at the initial state the empty candidate is
already "used" (the used-word set contains the empty current word), and
the submission leaves all listed fields untouched for any two oracle
outcomes. -/
theorem usedWord_rejected_and_unique_witness :
    handleSubmitWord initialState "" (Except.ok 0)
        = handleSubmitWord initialState "" (Except.error "오류") ∧
    (handleSubmitWord initialState "" (Except.ok 0)).score = initialState.score ∧
    (handleSubmitWord initialState "" (Except.ok 0)).lives = initialState.lives ∧
    (handleSubmitWord initialState "" (Except.ok 0)).timeLeft = initialState.timeLeft ∧
    (handleSubmitWord initialState "" (Except.ok 0)).history = initialState.history ∧
    (∀ v, v ≠ timeoutMarker →
      ((initialState.history.map fun a => a.newWord).count v) ≤ 1) ∧
    (initialState.currentWord ≠ timeoutMarker →
      ((initialState.history.map fun a => a.newWord).count initialState.currentWord) ≤ 1) :=
  usedWord_rejected_and_unique initialState Reachable.init ""
    (Except.ok 0) (Except.error "오류") (by decide)

/-- Counterexample to claim C6 as stated: when the player successfully
submits the literal timeout-marker string "(시간 초과)" as a word and the
round then times out, the reachable state has its current word recorded
twice as a `newWord` in the history. -/
theorem currentWord_twice_in_history_cex :
    (run initialState markerTraceEvents).map
      (fun s => ((s.history.map fun a => a.newWord).count s.currentWord,
        s.currentWord, s.gameState)) =
      some (2, timeoutMarker, GameState.PLAYING) := by
  decide

/-- Claim C8 (amended): `handleSubmitWord` has no phase guard — its
only early returns check the difficulty, the current word and the
used-word list — so a fourth submission after a completed game
(`GAME_OVER`, difficulty and current word still set) is not rejected:
with a fresh word and a failing similarity it decrements lives below 0,
appends to the history and deducts score, the phase merely remaining
`GAME_OVER`.  Such a call can never be dispatched through the UI, whose
submit form is only mounted while `PLAYING`: the corresponding step is
disabled. -/
theorem submit_after_gameover_not_rejected (s : AppState) (d : Difficulty)
    (w : String) (sim : ℚ) (hgo : s.gameState = GameState.GAME_OVER)
    (hd : s.difficulty = some d) (hcw : s.currentWord ≠ "")
    (hw : w ∉ allPreviouslyUsedWords s) (hsim : sim < s.currentThreshold) :
    step s (Event.submit w (Except.ok sim)) = none ∧
    (handleSubmitWord s w (Except.ok sim)).lives = s.lives - 1 ∧
    (handleSubmitWord s w (Except.ok sim)).history
        = s.history ++ [failAttempt s w sim] ∧
    (handleSubmitWord s w (Except.ok sim)).score = max 0 (s.score - 1000) ∧
    (handleSubmitWord s w (Except.ok sim)).gameState = GameState.GAME_OVER := by
  have hns : ¬s.currentThreshold ≤ sim := not_le.mpr hsim
  constructor
  · simp [step, hgo]
  · by_cases hz : s.lives - 1 ≤ 0 <;>
      refine ⟨?_, ?_, ?_, ?_⟩ <;>
      simp [handleSubmitWord, hd, hcw, hw, hns, hz, hgo]

/-- Witness for claim C8: at a concrete post-game state, the fourth
submission is processed rather than rejected. -/
theorem submit_after_gameover_not_rejected_witness :
    step gameOverState (Event.submit "나무" (Except.ok 0)) = none ∧
    (handleSubmitWord gameOverState "나무" (Except.ok 0)).lives
        = gameOverState.lives - 1 ∧
    (handleSubmitWord gameOverState "나무" (Except.ok 0)).history
        = gameOverState.history ++ [failAttempt gameOverState "나무" 0] ∧
    (handleSubmitWord gameOverState "나무" (Except.ok 0)).score
        = max 0 (gameOverState.score - 1000) ∧
    (handleSubmitWord gameOverState "나무" (Except.ok 0)).gameState
        = GameState.GAME_OVER :=
  submit_after_gameover_not_rejected gameOverState dHard "나무" 0
    (by decide) (by decide) (by decide) (by decide) (by decide)

/-- Counterexample to claim C8 as stated: after three consecutive
failures drive the session to `GAME_OVER` with 0 lives, a fourth
`handleSubmitWord` with a fresh word and similarity 0 is not rejected:
it drives lives to -1 and grows the history to 4 attempts. -/
theorem fourth_submit_mutates_cex :
    (run initialState threeFailEvents).map
      (fun s => ((handleSubmitWord s "나무" (Except.ok 0)).lives,
        (handleSubmitWord s "나무" (Except.ok 0)).history.length,
        s.gameState, s.lives)) = some (-1, 4, GameState.GAME_OVER, 0) := by
  decide

end Coggomul
